import Mathlib

/-!
Shallow embedding of the clipwise caption/highlight pipeline.

Sources:
- src/lib/ai/highlights.ts  (detectHighlights, generateCaptions, captionsToASS,
  generateKaraokeEvents, formatASSTime, hexToASSColor)
- src/lib/video/processor.ts (cropToVertical, burnCaptions, createClip)

JS numbers are modelled as rationals (ℚ); machine floats are not modelled.
Fallible JS code (parseInt producing NaN, thrown errors) is modelled with
Option / Except.  String case folding (String.prototype.toLowerCase) is
modelled by Lean's ASCII String.toLower, which agrees on the ASCII range.
-/

namespace Clipwise

/-! ## JS arithmetic helpers -/

/-- Truncating division result used by the JS `%` operator: `Math.trunc (q)`. -/
def jsTrunc (q : ℚ) : ℤ := if 0 ≤ q then ⌊q⌋ else ⌈q⌉

/-- JS remainder `a % b` (sign of the dividend; for `a, b ≥ 0` this is `a - b*⌊a/b⌋`). -/
def jsMod (a b : ℚ) : ℚ := a - b * jsTrunc (a / b)

/-- JS `Math.round` (round half toward positive infinity). -/
def jsRound (q : ℚ) : ℤ := ⌊q + 1 / 2⌋

/-- JS `String.prototype.padStart(2, "0")`. -/
def padStart2 (s : String) : String :=
  if s.length < 2 then String.mk (List.replicate (2 - s.length) '0') ++ s else s

/-! ## Transcript model (src/lib/ai/transcribe.ts) -/

/-- Word-level timestamp from the transcription engine:
`interface WordTimestamp { word: string; start: number; end: number }`. -/
structure WordTimestamp where
  word : String
  start : ℚ
  end_ : ℚ
deriving DecidableEq, Repr

/-- Segment-level transcription entry (only the fields the claims need). -/
structure TranscriptionSegment where
  text : String
  start : ℚ
  end_ : ℚ
deriving DecidableEq, Repr

/-! ## Highlight detection (src/lib/ai/highlights.ts, `detectHighlights`) -/

/-- One highlight candidate, as decoded from the model response
(`HighlightSchema`). -/
structure Highlight where
  title : String
  description : String
  startTime : ℚ
  endTime : ℚ
  hookText : String
  score : ℚ
  tags : List String
deriving DecidableEq, Repr

/-- The complete model response (`HighlightsResultSchema`). -/
structure HighlightsResult where
  highlights : List Highlight
  summary : String
  mainTopics : List String
deriving DecidableEq, Repr

/-- Options of `detectHighlights`, with the source's default values.
The audience/content hints only feed the prompt and are omitted. -/
structure HighlightOptions where
  maxHighlights : ℕ := 5
  minDuration : ℚ := 15
  maxDuration : ℚ := 60
deriving DecidableEq, Repr

/-- Errors surfaced by the AI components.  The JS wraps causes into
`Error` messages ("Failed to detect highlights: …",
"Failed to generate captions: …", "AI hallucinated words not in
transcription: …"); the constructors keep the distinct causes. -/
inductive AIError where
  | highlightDetectionFailed (cause : String)
  | captionGenerationFailed (cause : String)
  | captionHallucination (offendingWords : List String)
deriving DecidableEq, Repr

/-- Duration filter applied to one candidate
(`duration >= minDuration && duration <= maxDuration`). -/
def validHighlightDuration (minDuration maxDuration : ℚ) (h : Highlight) : Bool :=
  minDuration ≤ h.endTime - h.startTime && h.endTime - h.startTime ≤ maxDuration

/-- Local behaviour of `detectHighlights` as a function of the external
model call's outcome.  The external `generateObject` call (including its
schema validation) is the `modelResp` argument: `.error cause` when the
call fails or returns a malformed structure.  On success the code filters
by duration and truncates to `maxHighlights`, preserving order. -/
def detectHighlights (opts : HighlightOptions)
    (modelResp : Except String HighlightsResult) : Except AIError HighlightsResult :=
  match modelResp with
  | .error cause => .error (.highlightDetectionFailed cause)
  | .ok r =>
      .ok { r with
            highlights :=
              (r.highlights.filter
                (validHighlightDuration opts.minDuration opts.maxDuration)).take
                opts.maxHighlights }

/-! ## Caption generation (src/lib/ai/highlights.ts, `generateCaptions`) -/

/-- One caption word (`CaptionWordSchema`). -/
structure CaptionWord where
  word : String
  startTime : ℚ
  endTime : ℚ
  emphasis : Bool
deriving DecidableEq, Repr

/-- Screen position enumeration of `CaptionSegmentSchema`. -/
inductive ScreenPosition where
  | top
  | center
  | bottom
deriving DecidableEq, Repr

/-- One caption segment (`CaptionSegmentSchema`).  Note: the zod schema
puts no bound on `words.length`. -/
structure CaptionSegment where
  startTime : ℚ
  endTime : ℚ
  words : List CaptionWord
  position : ScreenPosition
deriving DecidableEq, Repr

/-- Caption styling (`CaptionsResultSchema.style`).  `fontSize` is a JS
number only ever interpolated into the header; the model restricts it to
a natural number so its decimal rendering is exact. -/
structure CaptionStyle where
  fontSize : ℕ
  color : String
  highlightColor : String
deriving DecidableEq, Repr

/-- The complete caption result (`CaptionsResultSchema`). -/
structure CaptionsResult where
  captions : List CaptionSegment
  style : CaptionStyle
  hook : String
deriving DecidableEq, Repr

/-- Options of `generateCaptions`, with the source defaults.  They only
feed the prompt; none is consulted by the local validation. -/
structure CaptionOptions where
  maxWordsPerSegment : ℕ := 3
  emphasizeKeywords : Bool := true
  includeHook : Bool := true
  language : String := "en"
deriving DecidableEq, Repr

/-- Character-list form of `String.trim`: drop whitespace from both ends. -/
def trimChars (l : List Char) : List Char :=
  ((l.dropWhile Char.isWhitespace).reverse.dropWhile Char.isWhitespace).reverse

/-- Normalisation used by the hallucination check:
`w.word.toLowerCase().trim()`.  Implemented over the character list
(equal to `String.toLower`/`String.trim` on ASCII input) so that it is
kernel-computable. -/
def normalizeWord (s : String) : String :=
  String.mk (trimChars (s.data.map Char.toLower))

/-- The set of normalised input word texts, kept as a list
(`new Set(words.map(w => w.word.toLowerCase().trim()))`; only membership
is ever queried). -/
def inputWordSet (words : List WordTimestamp) : List String :=
  words.map fun w => normalizeWord w.word

/-- All normalised output word texts across the returned segments
(`captions.flatMap(seg => seg.words.map(w => w.word.toLowerCase().trim()))`). -/
def captionWordsOf (r : CaptionsResult) : List String :=
  r.captions.flatMap fun seg => seg.words.map fun w => normalizeWord w.word

/-- `captionWords.filter(w => !originalWords.has(w))`. -/
def hallucinatedWords (words : List WordTimestamp) (r : CaptionsResult) : List String :=
  (captionWordsOf r).filter fun w => !(inputWordSet words).contains w

/-- Local behaviour of `generateCaptions` as a function of the external
model call's outcome.  The only local validation is the hallucination
check; segment sizes are requested in the prompt but never checked. -/
def generateCaptions (words : List WordTimestamp) (_opts : CaptionOptions)
    (modelResp : Except String CaptionsResult) : Except AIError CaptionsResult :=
  match modelResp with
  | .error cause => .error (.captionGenerationFailed cause)
  | .ok r =>
      let hall := hallucinatedWords words r
      if hall.length > 0 then .error (.captionHallucination hall) else .ok r

/-! ## Colour conversion (src/lib/ai/highlights.ts, `hexToASSColor`) -/

/-- Value of one hexadecimal digit character, as accepted by
`parseInt(_, 16)` (comparisons written on code points). -/
def hexDigitVal (c : Char) : Option ℕ :=
  if 48 ≤ c.toNat ∧ c.toNat ≤ 57 then some (c.toNat - 48)
  else if 97 ≤ c.toNat ∧ c.toNat ≤ 102 then some (c.toNat - 87)
  else if 65 ≤ c.toNat ∧ c.toNat ≤ 70 then some (c.toNat - 55)
  else none

/-- `parseInt(s, 16)` on a string of at most two characters: parses the
longest valid prefix, `none` where JS yields `NaN` (empty string or
invalid first character). -/
def parseIntHex2 : List Char → Option ℕ
  | [] => none
  | [c] =>
      match hexDigitVal c with
      | none => none
      | some h => some h
  | c :: c2 :: _ =>
      match hexDigitVal c, hexDigitVal c2 with
      | none, _ => none
      | some h, none => some h
      | some h, some l2 => some (16 * h + l2)

/-- JS `hex.replace('#', '')` removes only the first occurrence of `#`. -/
def removeFirstHash : List Char → List Char
  | [] => []
  | c :: cs => if c = '#' then cs else c :: removeFirstHash cs

/-- Parsing phase of `hexToASSColor`: `parseInt(cleanHex.substring(0,2), 16)`
and likewise for (2,4) and (4,6).  `none` models the NaN case (malformed
hex input, where the JS goes on to emit a garbage token). -/
def parseHexPairs (hex : String) : Option (ℕ × ℕ × ℕ) :=
  match parseIntHex2 ((removeFirstHash hex.data).take 2),
        parseIntHex2 (((removeFirstHash hex.data).drop 2).take 2),
        parseIntHex2 (((removeFirstHash hex.data).drop 4).take 2) with
  | some r, some g, some b => some (r, g, b)
  | _, _, _ => none

/-- `Math.round((1 - alpha) * 255)`: inverted alpha byte (0 = opaque). -/
def alphaByte (alpha : ℚ) : ℤ := jsRound ((1 - alpha) * 255)

/-- Upper-case hexadecimal digit character for `n < 16`. -/
def hexDigitCharUpper (n : ℕ) : Char :=
  if n < 10 then Char.ofNat (48 + n) else Char.ofNat (55 + n)

/-- `n.toString(16).padStart(2, '0').toUpperCase()` for a byte value
`n < 256` (every call site passes a parsed byte or a rounded alpha in
`[0, 255]`). -/
def toHexByteStr (n : ℕ) : String :=
  String.mk [hexDigitCharUpper (n / 16), hexDigitCharUpper (n % 16)]

/-- Formatting phase of `hexToASSColor`: `` `&H${a}${b}${g}${r}` `` with
each channel rendered by `toHexByteStr`. -/
def assColorToken (r g b : ℕ) (alpha : ℚ) : String :=
  "&H" ++ toHexByteStr (alphaByte alpha).toNat ++ toHexByteStr b
    ++ toHexByteStr g ++ toHexByteStr r

/-- `hexToASSColor(hex, alpha)`: hex RGB → `&HAABBGGRR` with BGR channel
order and inverted alpha.  `none` models the JS emitting a
NaN-containing token on unparsable input. -/
def hexToASSColor (hex : String) (alpha : ℚ) : Option String :=
  (parseHexPairs hex).map fun t => assColorToken t.1 t.2.1 t.2.2 alpha

/-- Modelled from the spec: decoding an `&HAABBGGRR` token back through
the documented byte order (alpha, blue, green, red), strict two digits
per channel.  The repository has no decoder; the spec's round-trip test
requires one. -/
def specDecodeASSColor (s : String) : Option (ℕ × ℕ × ℕ × ℕ) :=
  match s.data with
  | '&' :: 'H' :: a1 :: a2 :: b1 :: b2 :: g1 :: g2 :: r1 :: r2 :: [] =>
      match hexDigitVal a1, hexDigitVal a2, hexDigitVal b1, hexDigitVal b2,
            hexDigitVal g1, hexDigitVal g2, hexDigitVal r1, hexDigitVal r2 with
      | some ah, some al, some bh, some bl, some gh, some gl, some rh, some rl =>
          some (16 * ah + al, 16 * bh + bl, 16 * gh + gl, 16 * rh + rl)
      | _, _, _, _, _, _, _, _ => none
  | _ => none

/-! ## ASS time stamps (src/lib/ai/highlights.ts, `formatASSTime`) -/

/-- `formatASSTime(seconds)`: `H:MM:SS.cc`. -/
def formatASSTime (seconds : ℚ) : String :=
  let hours : ℤ := ⌊seconds / 3600⌋
  let minutes : ℤ := ⌊(jsMod seconds 3600) / 60⌋
  let secs : ℤ := ⌊jsMod seconds 60⌋
  let centiseconds : ℤ := ⌊(jsMod seconds 1) * 100⌋
  toString hours ++ ":" ++ padStart2 (toString minutes) ++ ":"
    ++ padStart2 (toString secs) ++ "." ++ padStart2 (toString centiseconds)

/-! ## ASS encoding (src/lib/ai/highlights.ts, `captionsToASS`,
`generateKaraokeEvents`) -/

/-- Inline override prefixed to the active word:
`{\1c<highlight>\3c&H00000000\bord3}` (literal braces written escaped). -/
def activeOverride (hl : String) : String :=
  "\x7b\\1c" ++ hl ++ "\\3c&H00000000\\bord3\x7d"

/-- Inline override prefixed to every inactive word:
`{\1c&H00FFFFFF\3c&H00000000\bord2}` (default white). -/
def inactiveOverride : String :=
  "\x7b\\1c&H00FFFFFF\\3c&H00000000\\bord2\x7d"

/-- Dead branch in `generateKaraokeEvents`:
`word.emphasis ? 'Highlight' : 'Highlight'`.  Computed per word and never
used by the emitted line. -/
def wordStyleOf (word : CaptionWord) : String :=
  if word.emphasis then "Highlight" else "Highlight"

/-- Visible text of one cue: the whole segment's word sequence joined
with spaces, each word prefixed by the active or inactive override
according to `w.word === word.word && w.startTime === word.startTime`. -/
def karaokeCueText (words : List CaptionWord) (hl : String) (word : CaptionWord) : String :=
  String.intercalate " "
    (words.map fun w =>
      if w.word = word.word ∧ w.startTime = word.startTime then
        activeOverride hl ++ w.word
      else
        inactiveOverride ++ w.word)

/-- Modelled from the spec's description of a cue's text: the whole
segment rendered together with exactly the word at index `i` carrying
the highlight override and every other word the default white override. -/
def specCueText (words : List CaptionWord) (hl : String) (i : ℕ) : String :=
  String.intercalate " "
    (words.enum.map fun p =>
      if p.1 = i then activeOverride hl ++ p.2.word
      else inactiveOverride ++ p.2.word)

/-- One dialogue line of `generateKaraokeEvents` (without the trailing
newline): style name is always `Default`. -/
def karaokeLine (words : List CaptionWord) (hl : String) (word : CaptionWord) : String :=
  "Dialogue: 0," ++ formatASSTime word.startTime ++ "," ++ formatASSTime word.endTime
    ++ ",Default,,0,0,0,," ++ karaokeCueText words hl word

/-- The list of dialogue lines of one segment: one per word
(`words.map(...)` in the source). -/
def karaokeLinesList (segment : CaptionSegment) (hl : String) : List String :=
  segment.words.map fun word => karaokeLine segment.words hl word

/-- `generateKaraokeEvents(segment, style)`: the segment's dialogue
lines, each terminated by a newline, concatenated.  `none` when the
highlight colour does not parse (then the JS embeds a NaN token). -/
def generateKaraokeEvents (segment : CaptionSegment) (style : CaptionStyle) :
    Option String :=
  (hexToASSColor style.highlightColor 1).map fun hl =>
    String.join ((karaokeLinesList segment hl).map fun line => line ++ "\n")

/-- Vertical reference resolution declared in the header:
`PlayResY: 1920`. -/
def playResY : ℕ := 1920

/-- MarginV of the `Default` style line (literal `480` in the source). -/
def defaultStyleMarginV : ℕ := 480

/-- MarginV of the `Highlight` style line (literal `480` in the source). -/
def highlightStyleMarginV : ℕ := 480

/-- Modelled from the spec: bottom margin for captions anchored
three-quarters down a frame of the given reference height,
`frameHeight × (1 − 3/4)`. -/
def specBottomMargin (referenceHeight : ℚ) : ℚ :=
  referenceHeight * (1 - 3 / 4)

/-- The `[Script Info]`/`[V4+ Styles]`/`[Events]` header emitted by
`captionsToASS`, with the `PlayResY` and MarginV literals named by the
constants above.  `none` when the highlight colour does not parse. -/
def assHeader (style : CaptionStyle) : Option String :=
  (hexToASSColor style.highlightColor 1).bind fun hl =>
    (hexToASSColor style.highlightColor (8 / 10)).map fun hlBack =>
      "[Script Info]\nTitle: Clipwise Captions\nScriptType: v4.00+\nWrapStyle: 0\n"
        ++ "ScaledBorderAndShadow: yes\nYCbCr Matrix: None\nPlayResY: "
        ++ toString playResY ++ "\n\n[V4+ Styles]\n"
        ++ "Format: Name, Fontname, Fontsize, PrimaryColour, SecondaryColour, "
        ++ "OutlineColour, BackColour, Bold, Italic, Underline, StrikeOut, ScaleX, "
        ++ "ScaleY, Spacing, Angle, BorderStyle, Outline, Shadow, Alignment, "
        ++ "MarginL, MarginR, MarginV, Encoding\n"
        ++ "Style: Default,Arial," ++ toString style.fontSize
        ++ ",&H00FFFFFF,&H00FFFFFF,&H00000000,&H80000000,1,0,0,0,100,100,0,0,1,2,1,2,10,10,"
        ++ toString defaultStyleMarginV ++ ",1\n"
        ++ "Style: Highlight,Arial," ++ toString style.fontSize
        ++ "," ++ hl ++ "," ++ hl ++ ",&H00000000," ++ hlBack
        ++ ",1,0,0,0,100,100,0,0,1,2,1,2,10,10,"
        ++ toString highlightStyleMarginV ++ ",1\n\n[Events]\n"
        ++ "Format: Layer, Start, End, Style, Name, MarginL, MarginR, MarginV, Effect, Text\n"

/-- `captionsToASS(captionsResult)`: header followed by the
concatenation of every segment's karaoke events. -/
def captionsToASS (captionsResult : CaptionsResult) : Option String :=
  (assHeader captionsResult.style).bind fun header =>
    ((captionsResult.captions.mapM fun seg =>
        generateKaraokeEvents seg captionsResult.style)).map fun events =>
      header ++ String.join events

/-- Map a caption word to the same word with the emphasis flag cleared. -/
def eraseWordEmphasis (w : CaptionWord) : CaptionWord :=
  { w with emphasis := false }

/-- Clear every emphasis flag of a segment. -/
def eraseSegEmphasis (s : CaptionSegment) : CaptionSegment :=
  { s with words := s.words.map eraseWordEmphasis }

/-- Clear every emphasis flag of a captions result. -/
def eraseEmphasis (c : CaptionsResult) : CaptionsResult :=
  { c with captions := c.captions.map eraseSegEmphasis }

/-! ## Vertical crop (src/lib/video/processor.ts, `cropToVertical`) -/

/-- Crop position option of `cropToVertical`. -/
inductive CropPosition where
  | center
  | top
  | bottom
deriving DecidableEq, Repr

/-- Options of `cropToVertical`, with the source defaults. -/
structure CropOptions where
  width : ℕ := 1080
  height : ℕ := 1920
  position : CropPosition := .center
deriving DecidableEq, Repr

/-- The crop window and scale target handed to the media engine's
`crop`/`scale` filters. -/
structure CropPlan where
  cropW : ℤ
  cropH : ℤ
  cropX : ℤ
  cropY : ℤ
  scaleW : ℕ
  scaleH : ℕ
deriving DecidableEq, Repr

/-- Filter-graph computation of `cropToVertical`, as a function of the
probed source dimensions.  The probe and the engine invocation are
external; the arithmetic is translated verbatim. -/
def cropToVertical (sourceWidth sourceHeight : ℕ) (opts : CropOptions) : CropPlan :=
  let targetAspect : ℚ := 9 / 16
  let sourceAspect : ℚ := (sourceWidth : ℚ) / (sourceHeight : ℚ)
  if sourceAspect > targetAspect then
    -- Source is wider - crop horizontally
    let cropWidth : ℤ := ⌊(sourceHeight : ℚ) * targetAspect⌋
    { cropW := cropWidth, cropH := sourceHeight,
      cropX := ⌊((sourceWidth : ℚ) - (cropWidth : ℚ)) / 2⌋, cropY := 0,
      scaleW := opts.width, scaleH := opts.height }
  else
    -- Source is taller - crop vertically
    let cropHeight : ℤ := ⌊(sourceWidth : ℚ) / targetAspect⌋
    let cropY : ℤ :=
      match opts.position with
      | .top => 0
      | .bottom => (sourceHeight : ℤ) - cropHeight
      | .center => ⌊((sourceHeight : ℚ) - (cropHeight : ℚ)) / 2⌋
    { cropW := sourceWidth, cropH := cropHeight, cropX := 0, cropY := cropY,
      scaleW := opts.width, scaleH := opts.height }

/-! ## Temp-file lifecycle (src/lib/video/processor.ts, `burnCaptions`,
`createClip`)

The filesystem is modelled as the list of existing paths; the ffmpeg
stages and `fs.writeFile` are external calls whose success is an oracle
bit.  A successful stage creates its output file; a failed one creates
nothing.  `fs.unlink` errors when the path is absent; call sites that
wrap it in try/catch use `tryUnlink`, which ignores the error. -/

/-- Filesystem state: the set of existing paths. -/
abbrev FS := List String

/-- Create a file (or overwrite it): the path now exists. -/
def fsAdd (fs : FS) (p : String) : FS :=
  if p ∈ fs then fs else p :: fs

/-- Remove every record of a path. -/
def fsRemove (fs : FS) (p : String) : FS :=
  fs.filter fun q => q ≠ p

/-- `fs.unlink(p)` with its error propagated. -/
def unlinkE (fs : FS) (p : String) : Except Unit FS :=
  if p ∈ fs then .ok (fsRemove fs p) else .error ()

/-- `try { await fs.unlink(p) } catch { /- ignore -/ }`. -/
def tryUnlink (fs : FS) (p : String) : FS :=
  fsRemove fs p

/-- Temp path `clip-<timestamp>-extracted.mp4` of one `createClip` run. -/
def extractedPath : String := "clip-extracted.mp4"

/-- Temp path `clip-<timestamp>-cropped.mp4` of one `createClip` run. -/
def croppedPath : String := "clip-cropped.mp4"

/-- Temp path `captions-<timestamp>.ass` written by `burnCaptions`. -/
def assPath : String := "captions.ass"

/-- `burnCaptions(inputPath, captionsResult, outputPath)`: writes the ASS
file, runs the overlay stage, and unlinks the ASS file on both the
success and the error path.  Returns the outcome and the final
filesystem. -/
def burnCaptions (writeOk burnOk : Bool) (fs : FS) (outputPath : String) :
    Except Unit Unit × FS :=
  if writeOk then
    let fs1 := fsAdd fs assPath
    if burnOk then
      (.ok (), tryUnlink (fsAdd fs1 outputPath) assPath)
    else
      (.error (), tryUnlink fs1 assPath)
  else
    -- fs.writeFile failed: the exception propagates before the ffmpeg
    -- promise is created and no ASS file exists.
    (.error (), fs)

/-- Cleanup loop of `createClip`'s catch block: best-effort unlink of
both temp paths. -/
def cleanupTemps (fs : FS) : FS :=
  tryUnlink (tryUnlink fs extractedPath) croppedPath

/-- `createClip(inputVideoPath, start, end, captionsResult, outputPath,
options)`: extract → (crop) → (burn | rename), with the catch block
deleting both temp paths on any error.  `hasCaptions` models
`captionsResult !== null`. -/
def createClip (extractOk cropOk writeOk burnOk : Bool)
    (shouldCrop shouldBurnCaptions hasCaptions : Bool)
    (fs : FS) (outputPath : String) : Except Unit Unit × FS :=
  -- Step 1: extract clip
  if !extractOk then (.error (), cleanupTemps fs) else
  let fs1 := fsAdd fs extractedPath
  -- Step 2: crop to vertical (optional)
  let step2 : Except Unit (String × FS) :=
    if shouldCrop then
      if !cropOk then .error () else
        match unlinkE (fsAdd fs1 croppedPath) extractedPath with
        | .ok fs2 => .ok (croppedPath, fs2)
        | .error e => .error e
    else
      .ok (extractedPath, fs1)
  match step2 with
  | .error _ =>
      -- the catch block sees the filesystem as the failing stage left it
      (.error (), cleanupTemps (if shouldCrop && cropOk then fsAdd fs1 croppedPath else fs1))
  | .ok (processedPath, fs2) =>
      -- Step 3: burn captions (optional) or rename to output
      if shouldBurnCaptions && hasCaptions then
        match burnCaptions writeOk burnOk fs2 outputPath with
        | (.ok _, fs3) =>
            match unlinkE fs3 processedPath with
            | .ok fs4 => (.ok (), fs4)
            | .error _ => (.error (), cleanupTemps fs3)
        | (.error _, fs3) => (.error (), cleanupTemps fs3)
      else
        match unlinkE fs2 processedPath with
        | .ok fs3 => (.ok (), fsAdd fs3 outputPath)
        | .error _ => (.error (), cleanupTemps fs2)

/-! ## Example values used by witnesses -/

/-- A 1.5-second highlight candidate. -/
def sampleShort : Highlight := ⟨"s", "", 0, 3 / 2, "", 90, []⟩

/-- A 25-second highlight candidate. -/
def sampleGood : Highlight := ⟨"g", "", 0, 25, "", 80, []⟩

/-- A 61-second highlight candidate. -/
def sampleLong : Highlight := ⟨"l", "", 0, 61, "", 70, []⟩

/-- A model response holding the three sample candidates in score order. -/
def sampleHighlights : HighlightsResult := ⟨[sampleShort, sampleGood, sampleLong], "sum", []⟩

/-- The response after the duration filter: only the 25-second candidate. -/
def sampleFiltered : HighlightsResult := ⟨[sampleGood], "sum", []⟩

/-- A three-word caption segment. -/
def sampleSeg3 : CaptionSegment :=
  ⟨0, 3 / 2, [⟨"uno", 0, 1 / 2, false⟩, ⟨"dos", 1 / 2, 1, true⟩,
    ⟨"tres", 1, 3 / 2, false⟩], .bottom⟩

/-- A two-word caption segment. -/
def sampleSeg2 : CaptionSegment :=
  ⟨3 / 2, 5 / 2, [⟨"cuatro", 3 / 2, 2, false⟩, ⟨"cinco", 2, 5 / 2, false⟩], .bottom⟩

/-- A four-word caption segment. -/
def sampleSeg4 : CaptionSegment :=
  ⟨5 / 2, 9 / 2, [⟨"seis", 5 / 2, 3, false⟩, ⟨"siete", 3, 7 / 2, false⟩,
    ⟨"ocho", 7 / 2, 4, false⟩, ⟨"nueve", 4, 9 / 2, false⟩], .bottom⟩

/-- A captions result whose segments hold 3, 2 and 4 words. -/
def sampleCaptions : CaptionsResult :=
  ⟨[sampleSeg3, sampleSeg2, sampleSeg4], ⟨36, "#FFFFFF", "#FFD700"⟩, "uno"⟩

/-! ## Claim theorems -/

/-- Claim C1: `generateCaptions` raises the hallucination error, naming
the offending words, exactly when some normalised output word is absent
from the normalised input word set; any successfully returned result is
the model response unchanged and its normalised output word set is a
subset of the normalised input word set. -/
theorem generateCaptions_no_hallucination
    (words : List WordTimestamp) (opts : CaptionOptions) (resp : CaptionsResult) :
    (∀ r, generateCaptions words opts (.ok resp) = .ok r →
        r = resp ∧ ∀ w ∈ captionWordsOf r, w ∈ inputWordSet words) ∧
    ((∃ w ∈ captionWordsOf resp, w ∉ inputWordSet words) →
        generateCaptions words opts (.ok resp)
            = .error (.captionHallucination (hallucinatedWords words resp))
          ∧ hallucinatedWords words resp ≠ []
          ∧ ∀ w ∈ hallucinatedWords words resp,
              w ∈ captionWordsOf resp ∧ w ∉ inputWordSet words) ∧
    ((∀ w ∈ captionWordsOf resp, w ∈ inputWordSet words) →
        generateCaptions words opts (.ok resp) = .ok resp) := by
  have hmem : ∀ w, w ∈ hallucinatedWords words resp ↔
      w ∈ captionWordsOf resp ∧ w ∉ inputWordSet words := by
    intro w
    simp [hallucinatedWords, List.mem_filter]
  have hempty : hallucinatedWords words resp = [] ↔
      ∀ w ∈ captionWordsOf resp, w ∈ inputWordSet words := by
    constructor
    · intro h w hw
      by_contra hnot
      have : w ∈ hallucinatedWords words resp := (hmem w).mpr ⟨hw, hnot⟩
      simp [h] at this
    · intro h
      rcases hne : hallucinatedWords words resp with _ | ⟨w, rest⟩
      · rfl
      · have hw : w ∈ hallucinatedWords words resp := by
          rw [hne]
          exact List.mem_cons_self w rest
        rcases (hmem w).mp hw with ⟨hw1, hw2⟩
        exact absurd (h w hw1) hw2
  refine ⟨?_, ?_, ?_⟩
  · intro r hr
    simp only [generateCaptions] at hr
    by_cases h : (hallucinatedWords words resp).length > 0
    · simp [h] at hr
    · simp only [h, if_false] at hr
      cases hr
      have hnil : hallucinatedWords words resp = [] := by
        simpa [List.length_eq_zero] using h
      exact ⟨rfl, hempty.mp hnil⟩
  · rintro ⟨w, hw, hnot⟩
    have hne : hallucinatedWords words resp ≠ [] := by
      intro hnil
      exact hnot (hempty.mp hnil w hw)
    have hlen : (hallucinatedWords words resp).length > 0 := by
      cases hh : hallucinatedWords words resp with
      | nil => exact absurd hh hne
      | cons a l => simp [hh]
    refine ⟨?_, hne, ?_⟩
    · simp [generateCaptions, hlen]
    · intro v hv
      exact (hmem v).mp hv
  · intro h
    have hnil : hallucinatedWords words resp = [] := hempty.mpr h
    simp [generateCaptions, hnil]

/-- Witness for claim C1: grouping the input word "Hola" (normalised to
"hola") succeeds. -/
theorem generateCaptions_no_hallucination_witness :
    generateCaptions [⟨"Hola", 0, 1⟩] {}
        (.ok ⟨[⟨0, 1, [⟨"hola", 0, 1, true⟩], .bottom⟩], ⟨36, "#FFFFFF", "#FFD700"⟩, "hola"⟩)
      = .ok ⟨[⟨0, 1, [⟨"hola", 0, 1, true⟩], .bottom⟩], ⟨36, "#FFFFFF", "#FFD700"⟩, "hola"⟩ := by
  refine (generateCaptions_no_hallucination [⟨"Hola", 0, 1⟩] {} _).2.2 ?_
  intro w hw
  have hc : captionWordsOf
      ⟨[⟨0, 1, [⟨"hola", 0, 1, true⟩], .bottom⟩], ⟨36, "#FFFFFF", "#FFD700"⟩, "hola"⟩
      = ["hola"] := rfl
  have hi : inputWordSet [⟨"Hola", 0, 1⟩] = ["hola"] := rfl
  rw [hc] at hw
  rw [hi]
  exact hw

/-- Claim C2: on a successful model response, `detectHighlights` returns
exactly the first `maxHighlights` elements of the order-preserving
subsequence of candidates whose duration lies inside
`[minDuration, maxDuration]` inclusive: the highlight list equals
filter-then-take, it is a sublist of the candidate list (no re-sorting),
its length is at most `maxHighlights`, and every retained candidate
satisfies the duration bounds. -/
theorem detectHighlights_duration_filter
    (opts : HighlightOptions) (r res : HighlightsResult)
    (h : detectHighlights opts (.ok r) = .ok res) :
    res.highlights =
        (r.highlights.filter fun c =>
          decide (opts.minDuration ≤ c.endTime - c.startTime ∧
                  c.endTime - c.startTime ≤ opts.maxDuration)).take opts.maxHighlights
      ∧ res.highlights.Sublist r.highlights
      ∧ res.highlights.length ≤ opts.maxHighlights
      ∧ ∀ c ∈ res.highlights,
          opts.minDuration ≤ c.endTime - c.startTime ∧
          c.endTime - c.startTime ≤ opts.maxDuration := by
  have hfun : (validHighlightDuration opts.minDuration opts.maxDuration) =
      fun c : Highlight =>
        decide (opts.minDuration ≤ c.endTime - c.startTime ∧
                c.endTime - c.startTime ≤ opts.maxDuration) := by
    funext c
    simp [validHighlightDuration, Bool.decide_and]
  simp only [detectHighlights, Except.ok.injEq] at h
  have hres : res.highlights =
      (r.highlights.filter
        (validHighlightDuration opts.minDuration opts.maxDuration)).take opts.maxHighlights := by
    rw [← h]
  refine ⟨by rw [hres, hfun], ?_, ?_, ?_⟩
  · rw [hres]
    exact ((r.highlights.filter _).take_sublist _).trans r.highlights.filter_sublist
  · rw [hres, List.length_take]
    exact min_le_left _ _
  · intro c hc
    rw [hres] at hc
    have hp := List.of_mem_filter (List.mem_of_mem_take hc)
    rw [hfun] at hp
    exact of_decide_eq_true hp

/-- Witness for claim C2: with the default constraints, a 1.5-second
candidate is dropped, a 25-second one retained, a 61-second one dropped. -/
theorem detectHighlights_duration_filter_witness :
    sampleFiltered.highlights =
        (sampleHighlights.highlights.filter fun c =>
          decide (({} : HighlightOptions).minDuration ≤ c.endTime - c.startTime ∧
                  c.endTime - c.startTime ≤ ({} : HighlightOptions).maxDuration)).take
          ({} : HighlightOptions).maxHighlights
      ∧ sampleFiltered.highlights.Sublist sampleHighlights.highlights
      ∧ sampleFiltered.highlights.length ≤ ({} : HighlightOptions).maxHighlights
      ∧ ∀ c ∈ sampleFiltered.highlights,
          ({} : HighlightOptions).minDuration ≤ c.endTime - c.startTime ∧
          c.endTime - c.startTime ≤ ({} : HighlightOptions).maxDuration := by
  refine detectHighlights_duration_filter {} sampleHighlights sampleFiltered ?_
  have v1 : validHighlightDuration 15 60 sampleShort = false := by
    simp only [validHighlightDuration, sampleShort]
    norm_num
  have v2 : validHighlightDuration 15 60 sampleGood = true := by
    simp only [validHighlightDuration, sampleGood]
    norm_num
  have v3 : validHighlightDuration 15 60 sampleLong = false := by
    simp only [validHighlightDuration, sampleLong]
    norm_num
  simp [detectHighlights, sampleHighlights, sampleFiltered, List.filter, v1, v2, v3]

/-- Claim C8: `detectHighlights` fails with `highlightDetectionFailed`
exactly when the external model call reports failure (a failed request
or a response rejected by the schema decoding, both surfaced as the
external call's error); and when the call succeeds but no candidate
survives the duration filter, the result is a success carrying an empty
highlight list. -/
theorem detectHighlights_failure_contract
    (opts : HighlightOptions) (modelResp : Except String HighlightsResult) :
    ((∃ e, detectHighlights opts modelResp = .error e) ↔ (∃ c, modelResp = .error c)) ∧
    (∀ c, modelResp = .error c →
        detectHighlights opts modelResp = .error (.highlightDetectionFailed c)) ∧
    (∀ r, modelResp = .ok r →
        r.highlights.filter (validHighlightDuration opts.minDuration opts.maxDuration) = [] →
        detectHighlights opts modelResp = .ok { r with highlights := [] }) := by
  refine ⟨?_, ?_, ?_⟩
  · cases modelResp with
    | error c => simp [detectHighlights]
    | ok r => simp [detectHighlights]
  · intro c hc
    subst hc
    simp [detectHighlights]
  · intro r hr hfil
    subst hr
    simp [detectHighlights, hfil]

/-- Witness for claim C8: a failed external call surfaces as
`highlightDetectionFailed` with its cause. -/
theorem detectHighlights_failure_contract_witness :
    detectHighlights {} (.error "boom") = .error (.highlightDetectionFailed "boom") :=
  (detectHighlights_failure_contract {} (.error "boom")).2.1 "boom" rfl

/-- Claim C6 (counterexample): a model response containing a one-word
segment, whose word occurs in the input, is returned successfully by
`generateCaptions` — the 2-word lower bound is not enforced. -/
theorem generateCaptions_segment_size_counterexample :
    generateCaptions [⟨"hola", 0, 1⟩] {}
        (.ok ⟨[⟨0, 1, [⟨"hola", 0, 1, false⟩], .bottom⟩], ⟨36, "#FFFFFF", "#FFD700"⟩, ""⟩)
      = .ok ⟨[⟨0, 1, [⟨"hola", 0, 1, false⟩], .bottom⟩], ⟨36, "#FFFFFF", "#FFD700"⟩, ""⟩
    ∧ ¬ (∀ seg ∈ ([⟨0, 1, [⟨"hola", 0, 1, false⟩], .bottom⟩] : List CaptionSegment),
          2 ≤ seg.words.length) := by
  constructor
  · rfl
  · intro h
    have := h _ (List.mem_singleton_self _)
    simp at this

/-- Claim C6 (amended): `generateCaptions` succeeds, returning the model
response unchanged, exactly when the hallucination check passes; no
per-segment word-count bound is validated locally (the 2–4 sizing is
only requested in the prompt). -/
theorem generateCaptions_size_unenforced
    (words : List WordTimestamp) (opts : CaptionOptions) (resp : CaptionsResult) :
    generateCaptions words opts (.ok resp) = .ok resp ↔
      hallucinatedWords words resp = [] := by
  constructor
  · intro h
    simp only [generateCaptions] at h
    by_cases hl : (hallucinatedWords words resp).length > 0
    · simp [hl] at h
    · simpa [List.length_eq_zero] using hl
  · intro h
    simp [generateCaptions, h]

/-- A parsed hexadecimal digit is below 16. -/
theorem hexDigitVal_lt {c : Char} {v : ℕ} (h : hexDigitVal c = some v) : v < 16 := by
  unfold hexDigitVal at h
  split_ifs at h with h1 h2 h3 <;> injection h with h <;> omega

/-- A value parsed from at most two hexadecimal digits is below 256. -/
theorem parseIntHex2_lt {l : List Char} {v : ℕ} (h : parseIntHex2 l = some v) : v < 256 := by
  cases l with
  | nil => exact absurd h (by simp [parseIntHex2])
  | cons c rest =>
      cases rest with
      | nil =>
          simp only [parseIntHex2] at h
          cases hc : hexDigitVal c with
          | none => rw [hc] at h; exact absurd h (by simp)
          | some hv =>
              rw [hc] at h
              have hhv := hexDigitVal_lt hc
              injection h with h
              omega
      | cons c2 rest2 =>
          simp only [parseIntHex2] at h
          cases hc : hexDigitVal c with
          | none => rw [hc] at h; exact absurd h (by simp)
          | some hv =>
              rw [hc] at h
              have hhv := hexDigitVal_lt hc
              cases hc2 : hexDigitVal c2 with
              | none => rw [hc2] at h; injection h with h; omega
              | some lv =>
                  rw [hc2] at h
                  have hlv := hexDigitVal_lt hc2
                  injection h with h
                  omega

/-- Inversion of `parseHexPairs`: a successful parse determines the
three channel parses. -/
theorem parseHexPairs_inv {hex : String} {r g b : ℕ}
    (hp : parseHexPairs hex = some (r, g, b)) :
    parseIntHex2 ((removeFirstHash hex.data).take 2) = some r
      ∧ parseIntHex2 (((removeFirstHash hex.data).drop 2).take 2) = some g
      ∧ parseIntHex2 (((removeFirstHash hex.data).drop 4).take 2) = some b := by
  unfold parseHexPairs at hp
  cases h1 : parseIntHex2 ((removeFirstHash hex.data).take 2) with
  | none => rw [h1] at hp; exact absurd hp (by simp)
  | some v1 =>
      rw [h1] at hp
      cases h2 : parseIntHex2 (((removeFirstHash hex.data).drop 2).take 2) with
      | none => rw [h2] at hp; exact absurd hp (by simp)
      | some v2 =>
          rw [h2] at hp
          cases h3 : parseIntHex2 (((removeFirstHash hex.data).drop 4).take 2) with
          | none => rw [h3] at hp; exact absurd hp (by simp)
          | some v3 =>
              rw [h3] at hp
              simp only [Option.some.injEq, Prod.mk.injEq] at hp
              obtain ⟨hr, hg, hb⟩ := hp
              subst hr hg hb
              exact ⟨rfl, rfl, rfl⟩

/-- Decoding an upper-case hexadecimal digit character recovers its value. -/
theorem hexDigitVal_charUpper : ∀ m, m < 16 → hexDigitVal (hexDigitCharUpper m) = some m := by
  decide

/-- Decoding a formatted `&H` token through the documented AABBGGRR byte
order recovers the four byte values. -/
theorem specDecodeASSColor_bytes (a b g r : ℕ)
    (ha : a < 256) (hb : b < 256) (hg : g < 256) (hr : r < 256) :
    specDecodeASSColor ("&H" ++ toHexByteStr a ++ toHexByteStr b
        ++ toHexByteStr g ++ toHexByteStr r) = some (a, b, g, r) := by
  have hdata : ("&H" ++ toHexByteStr a ++ toHexByteStr b
      ++ toHexByteStr g ++ toHexByteStr r).data
      = '&' :: 'H' :: hexDigitCharUpper (a / 16) :: hexDigitCharUpper (a % 16)
          :: hexDigitCharUpper (b / 16) :: hexDigitCharUpper (b % 16)
          :: hexDigitCharUpper (g / 16) :: hexDigitCharUpper (g % 16)
          :: hexDigitCharUpper (r / 16) :: hexDigitCharUpper (r % 16) :: [] := by
    simp [String.data_append, toHexByteStr]
  have hdiv : ∀ n : ℕ, n < 256 → n / 16 < 16 := by omega
  simp only [specDecodeASSColor, hdata,
    hexDigitVal_charUpper _ (hdiv a ha), hexDigitVal_charUpper _ (Nat.mod_lt a (by norm_num)),
    hexDigitVal_charUpper _ (hdiv b hb), hexDigitVal_charUpper _ (Nat.mod_lt b (by norm_num)),
    hexDigitVal_charUpper _ (hdiv g hg), hexDigitVal_charUpper _ (Nat.mod_lt g (by norm_num)),
    hexDigitVal_charUpper _ (hdiv r hr), hexDigitVal_charUpper _ (Nat.mod_lt r (by norm_num))]
  congr 1
  ext <;> simp <;> omega

/-- Claim C5: `hexToASSColor` maps a parsed RGB colour and an opacity to
the `&HAABBGGRR` token — inverted alpha byte first, then the channels
reordered to blue, green, red — and decoding that token back through the
documented byte order recovers the original channels; at full opacity
the alpha byte is 0. -/
theorem hexToASSColor_roundtrip
    (hex : String) (alpha : ℚ) (r g b : ℕ)
    (hp : parseHexPairs hex = some (r, g, b))
    (ha0 : 0 ≤ alpha) (ha1 : alpha ≤ 1) :
    hexToASSColor hex alpha
        = some ("&H" ++ toHexByteStr (alphaByte alpha).toNat ++ toHexByteStr b
            ++ toHexByteStr g ++ toHexByteStr r)
      ∧ specDecodeASSColor (assColorToken r g b alpha)
          = some ((alphaByte alpha).toNat, b, g, r)
      ∧ (alpha = 1 → (alphaByte alpha).toNat = 0) := by
  obtain ⟨hpr, hpg, hpb⟩ := parseHexPairs_inv hp
  have hr : r < 256 := parseIntHex2_lt hpr
  have hg : g < 256 := parseIntHex2_lt hpg
  have hb : b < 256 := parseIntHex2_lt hpb
  have halpha : (alphaByte alpha).toNat < 256 := by
    have hfloor : alphaByte alpha ≤ 255 := by
      unfold alphaByte jsRound
      have : (1 - alpha) * 255 + 1 / 2 ≤ (511 : ℚ) / 2 := by nlinarith
      calc ⌊(1 - alpha) * 255 + 1 / 2⌋ ≤ ⌊(511 : ℚ) / 2⌋ := Int.floor_le_floor this
        _ = 255 := by norm_num
    omega
  refine ⟨?_, specDecodeASSColor_bytes _ _ _ _ halpha hb hg hr, ?_⟩
  · simp [hexToASSColor, hp, assColorToken]
  · intro h1
    subst h1
    have : alphaByte 1 = 0 := by
      unfold alphaByte jsRound
      norm_num
    rw [this]
    rfl

/-- Witness for claim C5: `#FFD700` at full opacity yields the fixed
token `&H0000D7FF`, and decoding it through the AABBGGRR byte order
recovers alpha 0 and the RGB triple (255, 215, 0). -/
theorem hexToASSColor_roundtrip_witness :
    hexToASSColor "#FFD700" 1 = some "&H0000D7FF"
      ∧ specDecodeASSColor "&H0000D7FF" = some (0, 0, 215, 255) := by
  have h := hexToASSColor_roundtrip "#FFD700" 1 255 215 0 rfl (by norm_num) (by norm_num)
  have ha : (alphaByte 1).toNat = 0 := by
    have : alphaByte 1 = 0 := by
      unfold alphaByte jsRound
      norm_num
    rw [this]
    rfl
  constructor
  · rw [h.1, ha]
    rfl
  · have h2 := h.2.1
    rw [ha] at h2
    have htok : assColorToken 255 215 0 1 = "&H0000D7FF" := by
      unfold assColorToken
      rw [ha]
      rfl
    rw [htok] at h2
    exact h2

set_option maxRecDepth 10000 in
/-- Claim C4: the header emitted by `captionsToASS` declares
`PlayResY: 1920`, equal to the default target output height of the crop
stage; both style lines carry the same bottom margin 480, which is the
spec's `referenceHeight × 0.25` at 1920 (the same formula gives 270 at
1080) and not the naive 200; a concrete emitted header is computed in
full. -/
theorem captionsToASS_header_margin :
    playResY = 1920
      ∧ ({} : CropOptions).height = playResY
      ∧ defaultStyleMarginV = 480 ∧ highlightStyleMarginV = 480
      ∧ specBottomMargin (playResY : ℚ) = (defaultStyleMarginV : ℚ)
      ∧ specBottomMargin 1080 = 270
      ∧ defaultStyleMarginV ≠ 200
      ∧ assHeader ⟨36, "#FFFFFF", "#FFD700"⟩ = some
          ("[Script Info]\nTitle: Clipwise Captions\nScriptType: v4.00+\nWrapStyle: 0\nScaledBorderAndShadow: yes\nYCbCr Matrix: None\nPlayResY: 1920\n\n[V4+ Styles]\nFormat: Name, Fontname, Fontsize, PrimaryColour, SecondaryColour, OutlineColour, BackColour, Bold, Italic, Underline, StrikeOut, ScaleX, ScaleY, Spacing, Angle, BorderStyle, Outline, Shadow, Alignment, MarginL, MarginR, MarginV, Encoding\nStyle: Default,Arial,36,&H00FFFFFF,&H00FFFFFF,&H00000000,&H80000000,1,0,0,0,100,100,0,0,1,2,1,2,10,10,480,1\nStyle: Highlight,Arial,36,&H0000D7FF,&H0000D7FF,&H00000000,&H3300D7FF,1,0,0,0,100,100,0,0,1,2,1,2,10,10,480,1\n\n[Events]\nFormat: Layer, Start, End, Style, Name, MarginL, MarginR, MarginV, Effect, Text\n") := by
  have ha1 : (alphaByte 1).toNat = 0 := by
    have : alphaByte 1 = 0 := by
      unfold alphaByte jsRound
      norm_num
    rw [this]
    rfl
  have ha08 : (alphaByte (8 / 10)).toNat = 51 := by
    have : alphaByte (8 / 10) = 51 := by
      unfold alphaByte jsRound
      norm_num
    rw [this]
    rfl
  have hx1 : hexToASSColor "#FFD700" 1 = some "&H0000D7FF" := by
    have htok : assColorToken 255 215 0 1 = "&H0000D7FF" := by
      unfold assColorToken
      rw [ha1]
      rfl
    simp [hexToASSColor, show parseHexPairs "#FFD700" = some (255, 215, 0) from rfl, htok]
  have hx08 : hexToASSColor "#FFD700" (8 / 10) = some "&H3300D7FF" := by
    have htok : assColorToken 255 215 0 (8 / 10) = "&H3300D7FF" := by
      unfold assColorToken
      rw [ha08]
      rfl
    simp [hexToASSColor, show parseHexPairs "#FFD700" = some (255, 215, 0) from rfl, htok]
  refine ⟨rfl, rfl, rfl, rfl, by norm_num [specBottomMargin, playResY, defaultStyleMarginV],
    by norm_num [specBottomMargin], by norm_num [defaultStyleMarginV], ?_⟩
  simp only [assHeader, hx1, hx08, Option.bind_some, Option.map_some]
  rfl

/-- Claim C9: the crop window of `cropToVertical`.  When the source
aspect exceeds 9/16 the window is full-height, `⌊sourceHeight × 9/16⌋`
wide, horizontally centred at `⌊(sourceWidth − cropWidth)/2⌋`, `y = 0`;
otherwise it is full-width, `⌊sourceWidth ÷ (9/16)⌋` tall, with `y`
placed by the position option (0 for top, `sourceHeight − cropHeight`
for bottom, the centred floor for center, the default); in both cases
the window is scaled to the options' target resolution, 1080×1920 by
default. -/
theorem cropToVertical_geometry (w h : ℕ) (opts : CropOptions) :
    ((w : ℚ) / (h : ℚ) > 9 / 16 →
      cropToVertical w h opts =
        { cropW := ⌊(h : ℚ) * (9 / 16)⌋, cropH := h,
          cropX := ⌊((w : ℚ) - ((⌊(h : ℚ) * (9 / 16)⌋ : ℤ) : ℚ)) / 2⌋, cropY := 0,
          scaleW := opts.width, scaleH := opts.height })
    ∧ ((w : ℚ) / (h : ℚ) ≤ 9 / 16 →
      cropToVertical w h opts =
        { cropW := w, cropH := ⌊(w : ℚ) / (9 / 16)⌋, cropX := 0,
          cropY :=
            match opts.position with
            | .top => 0
            | .bottom => (h : ℤ) - ⌊(w : ℚ) / (9 / 16)⌋
            | .center => ⌊((h : ℚ) - ((⌊(w : ℚ) / (9 / 16)⌋ : ℤ) : ℚ)) / 2⌋,
          scaleW := opts.width, scaleH := opts.height })
    ∧ ({} : CropOptions).width = 1080 ∧ ({} : CropOptions).height = 1920 := by
  refine ⟨?_, ?_, rfl, rfl⟩
  · intro hgt
    simp only [cropToVertical]
    rw [if_pos hgt]
  · intro hle
    simp only [cropToVertical]
    rw [if_neg (not_lt.mpr hle)]

/-- Witness for claim C9: a 1920×1080 landscape source is cropped to a
full-height centred 607×1080 window; a 1080×1920 portrait source (aspect
exactly 9/16) keeps full width with a 1920-tall window at the bottom. -/
theorem cropToVertical_geometry_witness :
    cropToVertical 1920 1080 {} = ⟨607, 1080, 656, 0, 1080, 1920⟩
      ∧ cropToVertical 1080 1920 ⟨1080, 1920, .bottom⟩ = ⟨1080, 1920, 0, 0, 1080, 1920⟩ := by
  constructor
  · rw [(cropToVertical_geometry 1920 1080 {}).1 (by norm_num)]
    simp only [CropPlan.mk.injEq]
    norm_num
  · rw [(cropToVertical_geometry 1080 1920 ⟨1080, 1920, .bottom⟩).2.1 (by norm_num)]
    simp only [CropPlan.mk.injEq]
    norm_num

/-- Helper: `List.mapM` over `Option` ignores a premap that the function
cannot observe. -/
theorem mapM_option_map_congr {α β : Type} (g : α → α) (f : α → Option β)
    (hfg : ∀ a, f (g a) = f a) (l : List α) : (l.map g).mapM f = l.mapM f := by
  induction l with
  | nil => rfl
  | cons a t ih => rw [List.map_cons, List.mapM_cons, List.mapM_cons, hfg, ih]

/-- Helper: the cue text of a segment is unchanged by clearing emphasis
flags (the override choice reads only word text and start time). -/
theorem karaokeCueText_erase (words : List CaptionWord) (hl : String) (word : CaptionWord) :
    karaokeCueText (words.map eraseWordEmphasis) hl (eraseWordEmphasis word)
      = karaokeCueText words hl word := by
  unfold karaokeCueText
  rw [List.map_map]
  rfl

/-- Helper: a segment's dialogue lines are unchanged by clearing
emphasis flags. -/
theorem karaokeLinesList_erase (seg : CaptionSegment) (hl : String) :
    karaokeLinesList (eraseSegEmphasis seg) hl = karaokeLinesList seg hl := by
  unfold karaokeLinesList eraseSegEmphasis
  simp only [List.map_map]
  apply List.map_congr_left
  intro w _
  show karaokeLine (seg.words.map eraseWordEmphasis) hl (eraseWordEmphasis w)
      = karaokeLine seg.words hl w
  unfold karaokeLine
  rw [karaokeCueText_erase]
  rfl

/-- Helper: `generateKaraokeEvents` is unchanged by clearing emphasis
flags. -/
theorem generateKaraokeEvents_erase (seg : CaptionSegment) (style : CaptionStyle) :
    generateKaraokeEvents (eraseSegEmphasis seg) style = generateKaraokeEvents seg style := by
  unfold generateKaraokeEvents
  simp only [karaokeLinesList_erase]

/-- Helper: `captionsToASS` is unchanged by clearing emphasis flags. -/
theorem captionsToASS_erase (c : CaptionsResult) :
    captionsToASS (eraseEmphasis c) = captionsToASS c := by
  unfold captionsToASS eraseEmphasis
  simp only []
  rw [mapM_option_map_congr eraseSegEmphasis (fun seg => generateKaraokeEvents seg c.style)
    (fun seg => generateKaraokeEvents_erase seg c.style) c.captions]

/-- Claim C10: the encoded subtitle track is independent of the per-word
emphasis flags — two caption results equal up to emphasis encode to
character-identical output; the emphasis branch yields `Highlight` for
either flag value and every dialogue line is emitted with the `Default`
style name. -/
theorem captionsToASS_emphasis_independent
    (c₁ c₂ : CaptionsResult) (h : eraseEmphasis c₁ = eraseEmphasis c₂) :
    captionsToASS c₁ = captionsToASS c₂
      ∧ (∀ word : CaptionWord, wordStyleOf word = "Highlight")
      ∧ (∀ (ws : List CaptionWord) (hl : String) (word : CaptionWord),
          karaokeLine ws hl word = "Dialogue: 0," ++ formatASSTime word.startTime ++ ","
            ++ formatASSTime word.endTime ++ ",Default,,0,0,0,," ++ karaokeCueText ws hl word) := by
  refine ⟨?_, ?_, fun ws hl word => rfl⟩
  · calc captionsToASS c₁ = captionsToASS (eraseEmphasis c₁) := (captionsToASS_erase c₁).symm
      _ = captionsToASS (eraseEmphasis c₂) := by rw [h]
      _ = captionsToASS c₂ := captionsToASS_erase c₂
  · intro word
    unfold wordStyleOf
    split <;> rfl

/-- Witness for claim C10: flipping both emphasis flags of a two-word
segment leaves the encoded track unchanged. -/
theorem captionsToASS_emphasis_independent_witness :
    captionsToASS ⟨[⟨0, 1, [⟨"Hola", 0, 1, true⟩, ⟨"ya", 1, 2, false⟩], .bottom⟩],
        ⟨36, "#FFFFFF", "#FFD700"⟩, "Hola"⟩
      = captionsToASS ⟨[⟨0, 1, [⟨"Hola", 0, 1, false⟩, ⟨"ya", 1, 2, true⟩], .bottom⟩],
        ⟨36, "#FFFFFF", "#FFD700"⟩, "Hola"⟩ :=
  (captionsToASS_emphasis_independent _ _ rfl).1

/-- Helper: membership in `fsAdd`. -/
theorem mem_fsAdd {fs : FS} {p q : String} : q ∈ fsAdd fs p ↔ q = p ∨ q ∈ fs := by
  unfold fsAdd
  split_ifs with h
  · constructor
    · intro hq
      exact Or.inr hq
    · rintro (rfl | hq)
      · exact h
      · exact hq
  · simp [List.mem_cons]

/-- Helper: membership in `fsRemove`. -/
theorem mem_fsRemove {fs : FS} {p q : String} : q ∈ fsRemove fs p ↔ q ∈ fs ∧ q ≠ p := by
  simp [fsRemove, List.mem_filter]

/-- Claim C7: after any terminating run of `createClip` — any stage
oracle outcome, any option combination — neither the extract-stage nor
the crop-stage temp file created by that invocation still exists; and
the temp subtitle file of `burnCaptions` is gone on both its success and
its failure path. -/
theorem createClip_temp_cleanup
    (extractOk cropOk writeOk burnOk shouldCrop shouldBurnCaptions hasCaptions : Bool)
    (fs : FS) (outputPath : String)
    (hout1 : outputPath ≠ extractedPath) (hout2 : outputPath ≠ croppedPath)
    (hout3 : outputPath ≠ assPath)
    (he : extractedPath ∉ fs) (hc : croppedPath ∉ fs) (ha : assPath ∉ fs) :
    (extractedPath ∉ (createClip extractOk cropOk writeOk burnOk shouldCrop
        shouldBurnCaptions hasCaptions fs outputPath).2
      ∧ croppedPath ∉ (createClip extractOk cropOk writeOk burnOk shouldCrop
        shouldBurnCaptions hasCaptions fs outputPath).2
      ∧ assPath ∉ (createClip extractOk cropOk writeOk burnOk shouldCrop
        shouldBurnCaptions hasCaptions fs outputPath).2)
    ∧ (∀ (wOk bOk : Bool) (fs2 : FS) (out : String), assPath ∉ fs2 →
        assPath ∉ (burnCaptions wOk bOk fs2 out).2) := by
  have ne1 : extractedPath ≠ croppedPath := by decide
  have ne2 : extractedPath ≠ assPath := by decide
  have ne3 : croppedPath ≠ assPath := by decide
  have hs1 := Ne.symm hout1
  have hs2 := Ne.symm hout2
  have hs3 := Ne.symm hout3
  have hs4 := Ne.symm ne1
  have hs5 := Ne.symm ne2
  have hs6 := Ne.symm ne3
  constructor
  · cases extractOk <;> cases cropOk <;> cases writeOk <;> cases burnOk <;>
      cases shouldCrop <;> cases shouldBurnCaptions <;> cases hasCaptions <;>
      simp_all [createClip, burnCaptions, unlinkE, cleanupTemps, tryUnlink,
        mem_fsAdd, mem_fsRemove]
  · intro wOk bOk fs2 out ha2
    cases wOk <;> cases bOk <;>
      simp_all [burnCaptions, tryUnlink, mem_fsAdd, mem_fsRemove]

/-- Helper: `List.mapM` over `Option` where every element succeeds. -/
theorem mapM_option_all_some {α β : Type} (f : α → Option β) (g : α → β)
    (h : ∀ a, f a = some (g a)) (l : List α) : l.mapM f = some (l.map g) := by
  induction l with
  | nil => rfl
  | cons a t ih =>
      rw [List.map_cons, List.mapM_cons, h, ih]
      rfl

/-- Helper: when the start times of a segment's words are pairwise
distinct, the code's active-word test (same text and same start time)
picks out exactly the word at the cue's index. -/
theorem karaokeCueText_eq_specCueText (words : List CaptionWord) (hl : String) (i : ℕ)
    (hi : i < words.length) (hnd : (words.map fun w => w.startTime).Nodup) :
    karaokeCueText words hl (words.get ⟨i, hi⟩) = specCueText words hl i := by
  unfold karaokeCueText specCueText
  congr 1
  apply List.ext_getElem
  · simp
  · intro j hj1 hj2
    have hj : j < words.length := by simpa using hj1
    simp only [List.getElem_map, List.getElem_enum, List.get_eq_getElem]
    by_cases hij : j = i
    · subst hij
      simp
    · have hne : words[j].startTime ≠ words[i].startTime := by
        intro heq
        apply hij
        have hj2 : j < (words.map fun w => w.startTime).length := by simpa using hj
        have hi2 : i < (words.map fun w => w.startTime).length := by simpa using hi
        have h1 : (words.map fun w => w.startTime)[j]
            = (words.map fun w => w.startTime)[i] := by
          simp only [List.getElem_map]
          exact heq
        exact hnd.getElem_inj_iff.mp h1
      have hcond : ¬(words[j].word = words[i].word ∧
          words[j].startTime = words[i].startTime) := by
        rintro ⟨_, h2⟩
        exact hne h2
      simp [hij, hcond]

/-- Claim C3: `captionsToASS` emits the header followed, segment by
segment, by one dialogue cue line per word (so the cue-line count is the
sum of per-segment word counts); cue `i` of a segment spans exactly word
`i`'s start and end encoded by `formatASSTime` (`H:MM:SS.cc`), and —
when the segment's words have pairwise distinct start times — its text
renders the whole word sequence with exactly word `i` carrying the
highlight override and every other word the default white override. -/
theorem captionsToASS_karaoke_cues
    (c : CaptionsResult) (hl hdr : String)
    (hhl : hexToASSColor c.style.highlightColor 1 = some hl)
    (hhdr : assHeader c.style = some hdr) :
    captionsToASS c = some (hdr ++ String.join (c.captions.map fun seg =>
        String.join ((karaokeLinesList seg hl).map fun line => line ++ "\n")))
    ∧ (∀ seg ∈ c.captions, (karaokeLinesList seg hl).length = seg.words.length)
    ∧ ((c.captions.map fun seg => (karaokeLinesList seg hl).length).sum
        = (c.captions.map fun seg => seg.words.length).sum)
    ∧ (∀ seg ∈ c.captions, (seg.words.map fun w => w.startTime).Nodup →
        ∀ i, ∀ hi : i < seg.words.length,
          (karaokeLinesList seg hl)[i]? =
            some ("Dialogue: 0," ++ formatASSTime (seg.words.get ⟨i, hi⟩).startTime ++ ","
              ++ formatASSTime (seg.words.get ⟨i, hi⟩).endTime ++ ",Default,,0,0,0,,"
              ++ specCueText seg.words hl i)) := by
  have hev : ∀ seg, generateKaraokeEvents seg c.style
      = some (String.join ((karaokeLinesList seg hl).map fun line => line ++ "\n")) := by
    intro seg
    unfold generateKaraokeEvents
    rw [hhl]
    rfl
  refine ⟨?_, ?_, ?_, ?_⟩
  · unfold captionsToASS
    rw [hhdr, mapM_option_all_some _ _ hev]
    rfl
  · intro seg _
    simp [karaokeLinesList]
  · have hlen : ∀ seg ∈ c.captions,
        (fun seg => (karaokeLinesList seg hl).length) seg
          = (fun seg : CaptionSegment => seg.words.length) seg := by
      intro seg _
      simp [karaokeLinesList]
    rw [List.map_congr_left hlen]
  · intro seg _ hnd i hi
    unfold karaokeLinesList
    rw [List.getElem?_map, List.getElem?_eq_getElem hi]
    simp only [Option.map_some']
    unfold karaokeLine
    rw [show seg.words[i] = seg.words.get ⟨i, hi⟩ from rfl,
      karaokeCueText_eq_specCueText seg.words hl i hi hnd]

/-- Witness for claim C3: the 3+2+4-word sample encodes to 9 cue lines,
and cue 1 of the first segment highlights exactly its second word. -/
theorem captionsToASS_karaoke_cues_witness :
    ((sampleCaptions.captions.map fun seg =>
        (karaokeLinesList seg "&H0000D7FF").length).sum
      = (sampleCaptions.captions.map fun seg => seg.words.length).sum)
    ∧ (sampleCaptions.captions.map fun seg => seg.words.length).sum = 9
    ∧ (karaokeLinesList sampleSeg3 "&H0000D7FF")[1]? =
        some ("Dialogue: 0,"
          ++ formatASSTime (sampleSeg3.words.get ⟨1, by decide⟩).startTime ++ ","
          ++ formatASSTime (sampleSeg3.words.get ⟨1, by decide⟩).endTime
          ++ ",Default,,0,0,0,," ++ specCueText sampleSeg3.words "&H0000D7FF" 1) := by
  have ha1 : (alphaByte 1).toNat = 0 := by
    have : alphaByte 1 = 0 := by
      unfold alphaByte jsRound
      norm_num
    rw [this]
    rfl
  have hhl : hexToASSColor sampleCaptions.style.highlightColor 1 = some "&H0000D7FF" := by
    have htok : assColorToken 255 215 0 1 = "&H0000D7FF" := by
      unfold assColorToken
      rw [ha1]
      rfl
    simp [sampleCaptions, hexToASSColor,
      show parseHexPairs "#FFD700" = some (255, 215, 0) from rfl, htok]
  have hobt : ∃ hdr, assHeader sampleCaptions.style = some hdr := by
    unfold assHeader
    rw [hhl]
    cases hx : hexToASSColor sampleCaptions.style.highlightColor (8 / 10) with
    | none =>
        exfalso
        revert hx
        have ha08 : (alphaByte (8 / 10)).toNat = 51 := by
          have : alphaByte (8 / 10) = 51 := by
            unfold alphaByte jsRound
            norm_num
          rw [this]
          rfl
        simp [sampleCaptions, hexToASSColor,
          show parseHexPairs "#FFD700" = some (255, 215, 0) from rfl]
    | some hlBack => exact ⟨_, rfl⟩
  obtain ⟨hdr, hhdr⟩ := hobt
  have h := captionsToASS_karaoke_cues sampleCaptions "&H0000D7FF" hdr hhl hhdr
  refine ⟨h.2.2.1, rfl, ?_⟩
  have hnd : (sampleSeg3.words.map fun w => w.startTime).Nodup := by
    simp [sampleSeg3, List.nodup_cons]
  exact h.2.2.2 sampleSeg3 (List.mem_cons_self _ _) hnd 1 (by decide)

/-- Witness for claim C7: a crop-stage failure on a run started from a
filesystem holding only the source leaves no temp file behind. -/
theorem createClip_temp_cleanup_witness :
    extractedPath ∉ (createClip true false true true true true true
        ["input.mp4"] "out.mp4").2
      ∧ croppedPath ∉ (createClip true false true true true true true
        ["input.mp4"] "out.mp4").2
      ∧ assPath ∉ (createClip true false true true true true true
        ["input.mp4"] "out.mp4").2 :=
  (createClip_temp_cleanup true false true true true true true
    ["input.mp4"] "out.mp4" (by decide) (by decide) (by decide)
    (by decide) (by decide) (by decide)).1

end Clipwise
